import Mathlib

/-!
Shallow embedding of the buddy hub/connection code (src/streams.go,
src/client.go): bounded Go channels, the write pump, the broadcast sweep,
the register/unregister paths of the hub event loop, and the
OpenStreamsList registry.  Go machine state is passed explicitly; Go
runtime panics (close of a closed channel, send on a closed channel, nil
dereference) are modelled with an Except error value.
-/

namespace Buddy

abbrev SessionToken := String
abbrev Msg := String

/-- client.go: size of the client send channel (sendMsgBufferSize = 1024). -/
def sendMsgBufferSize : Nat := 1024

/-- client.go: size of the sendToken channel (sendTokenBufferSize = 1). -/
def sendTokenBufferSizeVal : Nat := 1

/-- Modelled from the spec: the sliding-TTL duration used by the session
manager (the session code is not under src/); an opaque positive constant,
no claim depends on its value. -/
def sessionTTL : Nat := 3600

/-- A buffered Go channel: the queued values plus the closed flag. -/
structure GoChan (α : Type) where
  buf : List α
  closed : Bool
deriving DecidableEq, Repr

/-- Outcome of a send attempted inside a select with a default branch:
a send on a closed channel is a runtime panic; a send on a full channel is
not ready (the default branch fires); otherwise the value is enqueued. -/
inductive SendOutcome (α : Type) where
  | sent (c : GoChan α)
  | notReady
  | panicked
deriving DecidableEq

def chanTrySend {α : Type} (c : GoChan α) (x : α) (cap : Nat) : SendOutcome α :=
  if c.closed then .panicked
  else if c.buf.length < cap then .sent ⟨c.buf ++ [x], false⟩
  else .notReady

/-- close(ch): closing an already-closed channel is a runtime panic. -/
def chanClose {α : Type} (c : GoChan α) : Except String (GoChan α) :=
  if c.closed then .error "close of closed channel" else .ok ⟨c.buf, true⟩

/-- client.go Client: the open flag (source field name: open, a Lean
keyword, rendered openFlag) and the two outbound channels. -/
structure Client where
  openFlag : Bool
  send : GoChan Msg
  sendToken : GoChan SessionToken
deriving DecidableEq, Repr

/-! ## The write pump (client.go, writePump) -/

/-- One frame written to the websocket transport. -/
inductive WireFrame where
  | text (payload : String)
  | closeFrame
  | ping
deriving DecidableEq, Repr

/-- Result of entering one branch of the writePump select on a given
channel state: not ready (would block, hence not selectable), or frames
written and the loop continues with the updated channel, or frames
written and the pump returns. -/
inductive BranchResult (α : Type) where
  | blocked
  | emit (frames : List WireFrame) (ch : GoChan α)
  | terminated (frames : List WireFrame)
deriving DecidableEq

/-- The wire payload built by writePump: write the first value, then for
each value queued at that moment write the newline delimiter and the
value, all inside one NextWriter flush. -/
def batchPayload (first : String) (queued : List String) : String :=
  first ++ chainWrites queued
where
  chainWrites : List String → String
    | [] => ""
    | m :: rest => "\n" ++ m ++ chainWrites rest

/-- Message branch of writePump (client.go lines 162-186): a closed-channel
signal returns without writing any frame (the close-handshake write at
line 168 is commented out in the source); a received message is written
batched with everything queued at that moment. -/
def writePumpMsgBranch (ch : GoChan Msg) : BranchResult Msg :=
  match ch.buf with
  | [] => if ch.closed then .terminated [] else .blocked
  | m :: rest => .emit [.text (batchPayload m rest)] ⟨[], ch.closed⟩

/-- Token branch of writePump (client.go lines 188-211): a closed-channel
signal writes a websocket close frame and returns; a received token is
written batched with everything queued at that moment. -/
def writePumpTokenBranch (ch : GoChan SessionToken) : BranchResult SessionToken :=
  match ch.buf with
  | [] => if ch.closed then .terminated [WireFrame.closeFrame] else .blocked
  | t :: rest => .emit [.text (batchPayload t rest)] ⟨[], ch.closed⟩

/-- Which select case the Go scheduler picks at one iteration of the
writePump loop (the choice among ready cases is nondeterministic). -/
inductive PumpSelect where
  | msgCase
  | tokenCase
  | tickCase
deriving DecidableEq

/-- State of one writePump execution: the two outbound channels it reads
and whether the pump has returned. -/
structure PumpState where
  send : GoChan Msg
  sendToken : GoChan SessionToken
  terminated : Bool
deriving DecidableEq

/-- One iteration of the writePump select loop under a given scheduler
choice: a blocked branch is not selectable (nothing happens), the ticker
branch writes a ping. -/
def pumpStep (ps : PumpState) (c : PumpSelect) : PumpState × List WireFrame :=
  if ps.terminated then (ps, [])
  else
    match c with
    | .msgCase =>
      match writePumpMsgBranch ps.send with
      | .blocked => (ps, [])
      | .emit fs ch => ({ ps with send := ch }, fs)
      | .terminated fs => ({ ps with terminated := true }, fs)
    | .tokenCase =>
      match writePumpTokenBranch ps.sendToken with
      | .blocked => (ps, [])
      | .emit fs ch => ({ ps with sendToken := ch }, fs)
      | .terminated fs => ({ ps with terminated := true }, fs)
    | .tickCase => (ps, [WireFrame.ping])

/-- Run the writePump loop under a finite schedule of select choices,
collecting the frames written to the wire in order. -/
def pumpRun (ps : PumpState) : List PumpSelect → PumpState × List WireFrame
  | [] => (ps, [])
  | c :: cs =>
    let r := pumpStep ps c
    let r2 := pumpRun r.1 cs
    (r2.1, r.2 ++ r2.2)

/-! ## OpenStreamsList (streams.go lines 7-47) -/

/-- streams.go OpenStreamsList: the token-keyed registry (a Go map,
modelled as an association list with replace-on-insert) and the separate
length counter.  The Go length field is a signed int. -/
structure OpenStreamsList (α : Type) where
  streams : List (SessionToken × α)
  length : Int
deriving DecidableEq

def NewOpenStreamsList (α : Type) : OpenStreamsList α := ⟨[], 0⟩

def OpenStreamsList.Exists {α : Type} (osl : OpenStreamsList α) (token : SessionToken) : Bool :=
  osl.streams.any (fun p => p.1 == token)

def OpenStreamsList.Add {α : Type} (osl : OpenStreamsList α) (token : SessionToken) (ac : α) :
    OpenStreamsList α :=
  ⟨(osl.streams.filter (fun p => p.1 != token)) ++ [(token, ac)], osl.length + 1⟩

/-- streams.go lines 39-42: delete from the map (a no-op on an absent key)
and decrement the counter unconditionally. -/
def OpenStreamsList.Delete {α : Type} (osl : OpenStreamsList α) (token : SessionToken) :
    OpenStreamsList α :=
  ⟨osl.streams.filter (fun p => p.1 != token), osl.length - 1⟩

def OpenStreamsList.IsEmpty {α : Type} (osl : OpenStreamsList α) : Bool :=
  osl.length == 0

/-! ## Sessions and the hub event loop (streams.go, Server.Run / broadcastAll) -/

/-- A session record: token, sliding expiry deadline, and the bound
connection (a Go pointer, modelled as an optional client id; nil before
the hub binds one). -/
structure Session where
  Token : SessionToken
  expireTime : Nat
  Client : Option Nat
deriving DecidableEq, Repr

/-- Modelled from the spec: SessionExpired of the session code (not under
src/) reports that the sliding TTL has lapsed at the current time. -/
def Session.SessionExpired (s : Session) (now : Nat) : Bool :=
  decide (s.expireTime ≤ now)

/-- Modelled from the spec: refreshExpiryTime of the session code (not
under src/) pushes the sliding deadline to now plus the TTL. -/
def refreshExpiryTime (now : Nat) : Nat := now + sessionTTL

/-- The diagnostic counters of broadcastAll (streams.go lines 125-128). -/
structure SweepAcc where
  expiredSessionCount : Nat
  closedClientCount : Nat
  refreshedClientCount : Nat
  messagesSent : Nat
deriving DecidableEq, Repr

def SweepAcc.zero : SweepAcc := ⟨0, 0, 0, 0⟩

/-- Point update of the client table at one client id. -/
def updClient (clients : Nat → Client) (cid : Nat) (c : Client) : Nat → Client :=
  fun i => if i = cid then c else clients i

/-- The body of the sessions.Range callback of broadcastAll (streams.go lines 129-156),
folded over the iteration order of the store.  Per visited session: an expired
session is deleted from the store and the iteration continues; a session
whose bound client is not open is skipped; otherwise the expireTime
of the session is refreshed and a non-blocking send of the message is tried on
the send channel of the client — on success the iteration continues, on a full
channel both outbound channels are closed and the callback returns false,
which stops the Range (the remaining sessions are returned unvisited).
Returns the surviving store contents in order, the updated client table
and the counters. -/
def sweepGo (message : Msg) (now : Nat) :
    (Nat → Client) → SweepAcc → List Session →
    Except String (List Session × (Nat → Client) × SweepAcc)
  | clients, acc, [] => .ok ([], clients, acc)
  | clients, acc, s :: rest =>
    if s.SessionExpired now then
      sweepGo message now clients
        { acc with expiredSessionCount := acc.expiredSessionCount + 1 } rest
    else
      match s.Client with
      | none => .error "invalid memory address or nil pointer dereference"
      | some cid =>
        let c := clients cid
        if !c.openFlag then
          match sweepGo message now clients
              { acc with closedClientCount := acc.closedClientCount + 1 } rest with
          | .ok (ss, cl, a) => .ok (s :: ss, cl, a)
          | .error e => .error e
        else
          let s2 := { s with expireTime := refreshExpiryTime now }
          let acc2 := { acc with refreshedClientCount := acc.refreshedClientCount + 1 }
          match chanTrySend c.send message sendMsgBufferSize with
          | .sent ch =>
            match sweepGo message now (updClient clients cid { c with send := ch })
                { acc2 with messagesSent := acc2.messagesSent + 1 } rest with
            | .ok (ss, cl, a) => .ok (s2 :: ss, cl, a)
            | .error e => .error e
          | .panicked => .error "send on closed channel"
          | .notReady =>
            match chanClose c.send with
            | .error e => .error e
            | .ok sendC =>
              match chanClose c.sendToken with
              | .error e => .error e
              | .ok tokC =>
                .ok (s2 :: rest,
                     updClient clients cid { c with send := sendC, sendToken := tokC },
                     acc2)

/-- State owned by the hub event loop: the session store contents in
iteration order, the client table (Go pointers as ids) and the clock. -/
structure HubState where
  sessions : List Session
  clients : Nat → Client
  now : Nat

/-- broadcastAll (streams.go lines 123-167). -/
def broadcastAll (st : HubState) (message : Msg) : Except String (HubState × SweepAcc) :=
  match sweepGo message st.now st.clients SweepAcc.zero st.sessions with
  | .ok (ss, cl, acc) => .ok ({ st with sessions := ss, clients := cl }, acc)
  | .error e => .error e

/-- The register case of Server.Run (streams.go lines 91-107): mark the
client open, receive the client-supplied token from the sendToken channel
(none when the channel is empty: the hub would block), and if it is "nil"
or unknown mint a fresh token and send it back on the now-empty capacity-1
sendToken channel, then bind the session to the client.  NewSession and
SetClient live in the session code, not under src/; they are modelled from
the spec: NewSession mints the fresh unique token freshTok (chosen by
the store, passed in as a parameter) and inserts a session carrying it with an
initial expiry, and SetClient (Bind in the spec) sets the bound connection
of the session holding the token. -/
def registerStep (st : HubState) (cid : Nat) (freshTok : SessionToken) : Option HubState :=
  let c := st.clients cid
  match c.sendToken.buf with
  | [] => none
  | token :: restBuf =>
    let c1 : Client := { c with openFlag := true,
                                sendToken := ⟨restBuf, c.sendToken.closed⟩ }
    let exists_ : Bool := st.sessions.any (fun s => s.Token == token)
    if token == "nil" || !exists_ then
      let c2 : Client := { c1 with
        sendToken := ⟨c1.sendToken.buf ++ [freshTok], c1.sendToken.closed⟩ }
      let sessions1 := st.sessions ++ [⟨freshTok, refreshExpiryTime st.now, none⟩]
      some { st with
        sessions := sessions1.map
          (fun s => if s.Token == freshTok then { s with Client := some cid } else s),
        clients := updClient st.clients cid c2 }
    else
      some { st with
        sessions := st.sessions.map
          (fun s => if s.Token == token then { s with Client := some cid } else s),
        clients := updClient st.clients cid c1 }

/-- The unregister case of Server.Run (streams.go lines 109-116): if the
client is marked open, clear the flag and close both outbound channels;
otherwise do nothing. -/
def unregisterStep (st : HubState) (cid : Nat) : Except String HubState :=
  let c := st.clients cid
  if c.openFlag then
    match chanClose c.send with
    | .error e => .error e
    | .ok sendC =>
      match chanClose c.sendToken with
      | .error e => .error e
      | .ok tokC =>
        let c2 : Client := { c with openFlag := false, send := sendC, sendToken := tokC }
        .ok { st with clients := updClient st.clients cid c2 }
  else .ok st

/-! ## Concrete scenario states used by counterexamples and witnesses -/

/-- A connection whose outbound message queue is saturated (buffer at
capacity), both channels open. -/
def fullClient : Client := ⟨true, ⟨List.replicate sendMsgBufferSize "x", false⟩, ⟨[], false⟩⟩

/-- An open connection with an empty outbound queue. -/
def idleClient : Client := ⟨true, ⟨[], false⟩, ⟨[], false⟩⟩

/-- A connection not marked open. -/
def closedClient : Client := ⟨false, ⟨[], false⟩, ⟨[], false⟩⟩

/-- Client table: id 1 is saturated, id 2 is idle, everything else closed. -/
def twoClients : Nat → Client :=
  fun i => if i = 1 then fullClient else if i = 2 then idleClient else closedClient

/-- Two live sessions, the first bound to the saturated connection. -/
def stTwo : HubState := ⟨[⟨"a", 100, some 1⟩, ⟨"b", 100, some 2⟩], twoClients, 0⟩

/-- One session bound to the saturated connection. -/
def stSat : HubState := ⟨[⟨"a", 100, some 1⟩], twoClients, 0⟩

/-- First session saturated and unexpired, second session expired at the
current clock (50). -/
def stLate : HubState := ⟨[⟨"a", 100, some 1⟩, ⟨"b", 50, some 2⟩], twoClients, 50⟩

/-- Observer: the store contents and the counters after a broadcast. -/
def broadcastResult (st : HubState) (m : Msg) : Option (List Session × SweepAcc) :=
  match broadcastAll st m with
  | .ok (st2, acc) => some (st2.sessions, acc)
  | .error _ => none

/-- Observer: the state of one client after a broadcast. -/
def broadcastClient (st : HubState) (m : Msg) (cid : Nat) : Option Client :=
  match broadcastAll st m with
  | .ok (st2, _) => some (st2.clients cid)
  | .error _ => none

/-- The hub processes a broadcast and then an unregister request for
client 1, as when the read pump of the force-closed connection exits. -/
def satThenUnregister : Except String HubState :=
  match broadcastAll stSat "m" with
  | .ok (st2, _) => unregisterStep st2 1
  | .error e => .error e

/-- A connecting client as built by serveWs (client.go lines 246-258):
not yet open, empty send queue, the client-supplied token "nil" already
enqueued on the capacity-1 token channel. -/
def freshClient : Client := ⟨false, ⟨[], false⟩, ⟨["nil"], false⟩⟩

/-- Hub state before registration of the connecting client (id 1). -/
def stReg : HubState := ⟨[], fun _ => freshClient, 0⟩

/-- Scenario: register client 1 (token "nil", mint "t1"), then the hub
broadcasts "hello" before the first select of the write pump, then the pump
runs with the schedule given: the frames reaching the wire, in order. -/
def handshakeFrames (sched : List PumpSelect) : Option (List WireFrame) :=
  match registerStep stReg 1 "t1" with
  | none => none
  | some st1 =>
    match broadcastAll st1 "hello" with
    | .ok (st2, _) =>
        some (pumpRun ⟨(st2.clients 1).send, (st2.clients 1).sendToken, false⟩ sched).2
    | .error _ => none

/-- Observer: the tokens queued on the token channel of client 1 after the
register-then-broadcast scenario, before the write pump runs. -/
def handshakeQueuedTokens : Option (List SessionToken) :=
  match registerStep stReg 1 "t1" with
  | none => none
  | some st1 =>
    match broadcastAll st1 "hello" with
    | .ok (st2, _) => some (st2.clients 1).sendToken.buf
    | .error _ => none

/-! ## Helper lemmas -/

/-- The tail-recursive accumulator of String.intercalate agrees with the
sequence of writes issued by the write pump. -/
theorem chainWrites_go (rest : List String) : ∀ acc : String,
    String.intercalate.go acc "\n" rest = acc ++ batchPayload.chainWrites rest := by
  induction rest with
  | nil =>
      intro acc
      simp [String.intercalate.go, batchPayload.chainWrites, String.append_empty]
  | cons r rs ih =>
      intro acc
      simp [String.intercalate.go, batchPayload.chainWrites, ih, String.append_assoc]

/-- The batched flush of the pump is the newline-interleaving of the first
message with everything queued. -/
theorem batchPayload_eq_intercalate (m : String) (rest : List String) :
    batchPayload m rest = String.intercalate "\n" (m :: rest) := by
  simp [String.intercalate, batchPayload, chainWrites_go]

/-! ## C10 -/

/-- C10: OpenStreamsList.Delete decrements the length counter even when
the token is absent, so deleting any token from the empty registry leaves
an empty map but IsEmpty reports false, the counter having gone to -1. -/
theorem delete_absent_token_breaks_isEmpty (t : SessionToken) :
    ((NewOpenStreamsList Unit).Delete t).IsEmpty = false ∧
    ((NewOpenStreamsList Unit).Delete t).streams = [] ∧
    ((NewOpenStreamsList Unit).Delete t).length = -1 :=
  ⟨rfl, rfl, rfl⟩

/-! ## C9 -/

/-- C9: when the write pump wakes on an available outbound message it
writes that message together with every message queued on the send
channel at that moment as one wire flush, consecutive messages separated
by the newline delimiter, leaving the queue drained. -/
theorem writePump_batches_queued_messages_single_flush
    (m : Msg) (rest : List Msg) (cl : Bool) (tok : GoChan SessionToken) :
    writePumpMsgBranch ⟨m :: rest, cl⟩ =
      .emit [.text (String.intercalate "\n" (m :: rest))] ⟨[], cl⟩ ∧
    pumpStep ⟨⟨m :: rest, cl⟩, tok, false⟩ .msgCase =
      (⟨⟨[], cl⟩, tok, false⟩, [.text (String.intercalate "\n" (m :: rest))]) := by
  constructor
  · simp [writePumpMsgBranch, batchPayload_eq_intercalate]
  · simp [pumpStep, writePumpMsgBranch, batchPayload_eq_intercalate]

/-! ## C4 -/

/-- The claim says that on observing the outbound message queue closed the
write pump makes a final close-handshake attempt before exiting; in the
source that write (client.go line 168) is commented out: the pump
terminates on the closed message queue having written no frame at all. -/
theorem writePump_msgQueueClosed_no_closeFrame_cx :
    pumpStep ⟨⟨[], true⟩, ⟨[], false⟩, false⟩ .msgCase =
      (⟨⟨[], true⟩, ⟨[], false⟩, true⟩, []) ∧
    WireFrame.closeFrame ∉ (pumpStep ⟨⟨[], true⟩, ⟨[], false⟩, false⟩ .msgCase).2 := by
  constructor
  · rfl
  · decide

/-- C4 (amended): closure of either outbound queue, observed as a
channel-closed signal, terminates the write pump; the final
close-handshake frame is written on closure of the token queue, while on
closure of the message queue the pump exits without writing any frame
(the close-frame write there is commented out in the source). -/
theorem writePump_queueClosed_terminates (tok : GoChan SessionToken) (send : GoChan Msg) :
    pumpStep ⟨⟨[], true⟩, tok, false⟩ .msgCase = (⟨⟨[], true⟩, tok, true⟩, []) ∧
    pumpStep ⟨send, ⟨[], true⟩, false⟩ .tokenCase =
      (⟨send, ⟨[], true⟩, true⟩, [WireFrame.closeFrame]) := by
  constructor
  · simp [pumpStep, writePumpMsgBranch]
  · simp [pumpStep, writePumpTokenBranch]

set_option maxRecDepth 100000

/-! ## C1 counterexample -/

/-- The claim says the hub, after force-closing a saturated connection,
continues the sweep and services every remaining session.  In the source
the Range callback returns false after the force-close, which stops the
iteration: here session "b", later in the iteration order, keeps its old
expireTime and its idle connection receives nothing (zero messages sent),
while the connection of session "a" is force-closed. -/
theorem broadcast_fullQueue_stops_sweep_cx :
    broadcastResult stTwo "hello" =
      some ([⟨"a", 3600, some 1⟩, ⟨"b", 100, some 2⟩], ⟨0, 0, 1, 0⟩) ∧
    broadcastClient stTwo "hello" 2 = some idleClient ∧
    broadcastClient stTwo "hello" 1 =
      some ⟨true, ⟨List.replicate sendMsgBufferSize "x", true⟩, ⟨[], true⟩⟩ := by
  refine ⟨by decide, by decide, by decide⟩

/-! ## C2 counterexample -/

/-- The claim says expireTime is never refreshed for a delivery attempt
that fails.  In the source the refresh (streams.go line 143) happens
before the non-blocking send: here delivery to the only session fails
(queue full, zero messages sent, connection force-closed) yet its
expireTime advanced from 100 to 3600. -/
theorem expireTime_refreshed_on_failed_delivery_cx :
    broadcastResult stSat "m" = some ([⟨"a", 3600, some 1⟩], ⟨0, 0, 1, 0⟩) := by
  decide

/-! ## C7 counterexample -/

/-- The claim says every session whose TTL has lapsed is deleted by the
sweep.  Here the sweep stops at the saturated session "a" (force-close,
callback returns false), so the expired session "b" is never visited and
survives the sweep. -/
theorem expired_session_survives_stopped_sweep_cx :
    broadcastResult stLate "p" =
      some ([⟨"a", 3650, some 1⟩, ⟨"b", 50, some 2⟩], ⟨0, 0, 1, 0⟩) ∧
    Session.SessionExpired ⟨"b", 50, some 2⟩ 50 = true := by
  refine ⟨by decide, by decide⟩

/-! ## C3 -/

/-- C3: the broadcast force-close path (streams.go lines 150-153) closes
both outbound channels but leaves the open flag true, so the later
unregister of the same connection passes its open-flag guard and closes
the channels a second time — in Go a runtime panic (close of closed
channel), modelled as the error value.  Evaluates the code at the failing
input: broadcast to the saturated connection, then unregister it. -/
theorem unregister_after_forceClose_double_close_panics :
    broadcastClient stSat "m" 1 =
      some ⟨true, ⟨List.replicate sendMsgBufferSize "x", true⟩, ⟨[], true⟩⟩ ∧
    satThenUnregister = .error "close of closed channel" := by
  refine ⟨by decide, by rfl⟩

/-! ## C6 counterexample -/

/-- The claim says the freshly minted token reaches the wire before any
data frame.  The token is queued before the write pump starts, but when
the broadcast of the hub runs before the first select of the pump, both
outbound channels are ready, and the Go select statement chooses among ready cases
nondeterministically: under the legal schedule that picks the message
case first, the data frame "hello" reaches the wire before the token
frame "t1". -/
theorem token_frame_after_data_frame_cx :
    handshakeQueuedTokens = some ["t1"] ∧
    handshakeFrames [.msgCase, .tokenCase] =
      some [.text "hello", .text "t1"] := by
  refine ⟨by decide, by decide⟩

/-! ## Preservation helper lemmas -/

/-- Registration never deletes a session and never touches the expiry of
an existing session: every pre-existing session survives with the same
token and the same expireTime. -/
theorem registerStep_preserves_sessions
    (st : HubState) (cid : Nat) (freshTok : SessionToken) (st2 : HubState)
    (h : registerStep st cid freshTok = some st2) :
    ∀ s ∈ st.sessions, ∃ s2 ∈ st2.sessions, s2.Token = s.Token ∧ s2.expireTime = s.expireTime := by
  intro s hs
  unfold registerStep at h
  dsimp only at h
  cases hbuf : (st.clients cid).sendToken.buf with
  | nil => rw [hbuf] at h; exact absurd h (by simp)
  | cons tk restBuf =>
      rw [hbuf] at h
      dsimp only at h
      by_cases hc : (tk == "nil" || !st.sessions.any fun s => s.Token == tk) = true
      · rw [if_pos hc] at h
        injection h with h2
        subst h2
        refine ⟨if (s.Token == freshTok) = true then { s with Client := some cid } else s,
                List.mem_map_of_mem _ (List.mem_append_left _ hs), ?_⟩
        by_cases htk : (s.Token == freshTok) = true <;> simp [htk]
      · rw [if_neg hc] at h
        injection h with h2
        subst h2
        refine ⟨if (s.Token == tk) = true then { s with Client := some cid } else s,
                List.mem_map_of_mem _ hs, ?_⟩
        by_cases htk : (s.Token == tk) = true <;> simp [htk]

/-- The unregister path never touches the session store. -/
theorem unregisterStep_sessions_eq (st : HubState) (cid : Nat) (st2 : HubState)
    (h : unregisterStep st cid = .ok st2) : st2.sessions = st.sessions := by
  unfold unregisterStep at h
  dsimp only at h
  split at h
  · split at h
    · exact absurd h (by simp)
    · split at h
      · exact absurd h (by simp)
      · cases h; rfl
  · cases h; rfl

/-! ## C1 (amended) -/

/-- C1 (amended): when the sweep reaches a session whose bound open
message queue of the bound open connection is full, the hub force-closes
both of its outbound queues and immediately ends the sweep: the
remaining sessions are returned unvisited and unchanged, with no message
delivered to them, and the hub does not block. -/
theorem broadcast_fullQueue_forceCloses_and_ends_sweep
    (message : Msg) (now : Nat) (clients : Nat → Client) (acc : SweepAcc)
    (s : Session) (rest : List Session) (cid : Nat)
    (hexp : s.SessionExpired now = false)
    (hcl : s.Client = some cid)
    (hopen : (clients cid).openFlag = true)
    (hncl : (clients cid).send.closed = false)
    (hfull : ¬ (clients cid).send.buf.length < sendMsgBufferSize)
    (htok : (clients cid).sendToken.closed = false) :
    sweepGo message now clients acc (s :: rest) =
      .ok ({ s with expireTime := refreshExpiryTime now } :: rest,
           updClient clients cid
             { clients cid with
                 send := ⟨(clients cid).send.buf, true⟩,
                 sendToken := ⟨(clients cid).sendToken.buf, true⟩ },
           { acc with refreshedClientCount := acc.refreshedClientCount + 1 }) := by
  simp [sweepGo, hexp, hcl, hopen, chanTrySend, hncl, hfull, chanClose, htok]

/-- Witness for the amended C1 at a concrete input: two sessions, the
first bound to the saturated connection, the second to the idle one. -/
theorem broadcast_fullQueue_forceCloses_and_ends_sweep_witness :
    sweepGo "hello" 0 twoClients SweepAcc.zero
        (⟨"a", 100, some 1⟩ :: [⟨"b", 100, some 2⟩]) =
      .ok ({ Session.mk "a" 100 (some 1) with expireTime := refreshExpiryTime 0 }
             :: [⟨"b", 100, some 2⟩],
           updClient twoClients 1
             { twoClients 1 with
                 send := ⟨(twoClients 1).send.buf, true⟩,
                 sendToken := ⟨(twoClients 1).sendToken.buf, true⟩ },
           { SweepAcc.zero with
               refreshedClientCount := SweepAcc.zero.refreshedClientCount + 1 }) :=
  broadcast_fullQueue_forceCloses_and_ends_sweep "hello" 0 twoClients SweepAcc.zero
    ⟨"a", 100, some 1⟩ [⟨"b", 100, some 2⟩] 1
    (by decide) (by decide) (by decide) (by decide) (by decide) (by decide)

/-! ## C2 (amended) -/

/-- C2 (amended): the expireTime of a session moves only forward (it never
exceeds now + TTL, and a refresh sets it to exactly that), and it is
updated only when a broadcast sweep visits the session with an open bound
connection and an unlapsed TTL — the refresh happens before the
non-blocking enqueue, hence also when the delivery attempt fails; neither
registration nor unregistration ever changes the expireTime of a session. -/
theorem expireTime_forward_only_on_delivery_attempt :
    (∀ (message : Msg) (now : Nat) (clients : Nat → Client) (acc : SweepAcc)
       (s : Session) (rest : List Session) (cid : Nat)
       (ss : List Session) (cl : Nat → Client) (a : SweepAcc),
        s.SessionExpired now = false → s.Client = some cid →
        (clients cid).openFlag = true →
        sweepGo message now clients acc (s :: rest) = .ok (ss, cl, a) →
        ss.head? = some { s with expireTime := refreshExpiryTime now }) ∧
    (∀ (s : Session) (now : Nat), s.expireTime ≤ now + sessionTTL →
        s.expireTime ≤ refreshExpiryTime now) ∧
    (∀ (st : HubState) (cid : Nat) (freshTok : SessionToken) (st2 : HubState),
        registerStep st cid freshTok = some st2 →
        ∀ s ∈ st.sessions, ∃ s2 ∈ st2.sessions,
          s2.Token = s.Token ∧ s2.expireTime = s.expireTime) ∧
    (∀ (st : HubState) (cid : Nat) (st2 : HubState),
        unregisterStep st cid = .ok st2 → st2.sessions = st.sessions) := by
  refine ⟨?_, ?_, registerStep_preserves_sessions, unregisterStep_sessions_eq⟩
  · intro message now clients acc s rest cid ss cl a hexp hcl hopen h
    simp only [sweepGo, hexp, hcl, hopen, Bool.not_true, Bool.false_eq_true, if_false] at h
    split at h
    next ch heq =>
      split at h
      next ss2 cl2 a2 heq2 =>
        injection h with h2
        injection h2 with hss hrest2
        subst hss
        simp [hcl]
      next e heq2 => exact absurd h (by simp)
    next heq => exact absurd h (by simp)
    next heq =>
      split at h
      next e heq2 => exact absurd h (by simp)
      next sendC heq2 =>
        split at h
        next e heq3 => exact absurd h (by simp)
        next tokC heq3 =>
          injection h with h2
          injection h2 with hss hrest2
          subst hss
          simp [hcl]
  · intro s now hle
    simpa [refreshExpiryTime] using hle

/-- Witness for the amended C2 at concrete inputs: a delivered session
comes out of the sweep with its expiry refreshed, and the refresh moved
the deadline forward. -/
theorem expireTime_forward_only_on_delivery_attempt_witness :
    [(⟨"b", 3600, some 2⟩ : Session)].head? =
        some { Session.mk "b" 100 (some 2) with expireTime := refreshExpiryTime 0 } ∧
    (100 : Nat) ≤ refreshExpiryTime 0 :=
  ⟨expireTime_forward_only_on_delivery_attempt.1 "m" 0 twoClients SweepAcc.zero
      ⟨"b", 100, some 2⟩ [] 2 [⟨"b", 3600, some 2⟩]
      (updClient twoClients 2 { idleClient with send := ⟨["m"], false⟩ }) ⟨0, 0, 1, 1⟩
      (by decide) (by decide) (by decide) (by rfl),
   expireTime_forward_only_on_delivery_attempt.2.1 ⟨"b", 100, some 2⟩ 0 (by decide)⟩

/-! ## C7 (amended) -/

/-- C7 (amended): a visited session whose sliding TTL has lapsed is
deleted from the store and the sweep continues past it; a visited session
whose bound connection is not open is skipped, not deleted, and the sweep
continues; and expired sessions are garbage-collected only inside a
broadcast sweep — the register and unregister paths never remove a
session.  (A sweep ended early by a force-close leaves the sessions after
the stop point untouched, expired ones included.) -/
theorem sweep_deletes_expired_skips_closed :
    (∀ (message : Msg) (now : Nat) (clients : Nat → Client) (acc : SweepAcc)
       (s : Session) (rest : List Session),
        s.SessionExpired now = true →
        sweepGo message now clients acc (s :: rest) =
          sweepGo message now clients
            { acc with expiredSessionCount := acc.expiredSessionCount + 1 } rest) ∧
    (∀ (message : Msg) (now : Nat) (clients : Nat → Client) (acc : SweepAcc)
       (s : Session) (rest : List Session) (cid : Nat),
        s.SessionExpired now = false → s.Client = some cid →
        (clients cid).openFlag = false →
        sweepGo message now clients acc (s :: rest) =
          Except.map (fun r => (s :: r.1, r.2))
            (sweepGo message now clients
              { acc with closedClientCount := acc.closedClientCount + 1 } rest)) ∧
    (∀ (st : HubState) (cid : Nat) (freshTok : SessionToken) (st2 : HubState),
        registerStep st cid freshTok = some st2 →
        ∀ s ∈ st.sessions, ∃ s2 ∈ st2.sessions, s2.Token = s.Token) ∧
    (∀ (st : HubState) (cid : Nat) (st2 : HubState),
        unregisterStep st cid = .ok st2 → st2.sessions = st.sessions) := by
  refine ⟨?_, ?_, ?_, unregisterStep_sessions_eq⟩
  · intro message now clients acc s rest hexp
    simp [sweepGo, hexp]
  · intro message now clients acc s rest cid hexp hcl hopen
    simp only [sweepGo, hexp, hcl, hopen, Bool.not_false, Bool.false_eq_true, if_false,
      if_true]
    cases hrec : sweepGo message now clients
        { acc with closedClientCount := acc.closedClientCount + 1 } rest with
    | ok r => simp [Except.map]
    | error e => simp [Except.map]
  · intro st cid freshTok st2 h s hs
    obtain ⟨s2, hmem, htok, _⟩ := registerStep_preserves_sessions st cid freshTok st2 h s hs
    exact ⟨s2, hmem, htok⟩

/-- The hub state with one pre-existing session "k" and a connecting
client (id 1) that supplied the known token "k". -/
def clientK : Client := ⟨false, ⟨[], false⟩, ⟨["k"], false⟩⟩

def stKnown : HubState := ⟨[⟨"k", 77, none⟩], fun _ => clientK, 0⟩

/-- The hub state produced by registering client 1 with the known token
"k": the session is bound, no token minted, the token channel drained. -/
def stKnownAfter : HubState :=
  ⟨[⟨"k", 77, some 1⟩], updClient (fun _ => clientK) 1 idleClient, 0⟩

/-- Witness for the amended C7 at concrete inputs: an expired visited
session is dropped and the sweep goes on; a not-open visited session is
kept and skipped; registration preserves the pre-existing session;
unregistering a non-open client leaves the store untouched. -/
theorem sweep_deletes_expired_skips_closed_witness :
    sweepGo "x" 5 twoClients SweepAcc.zero [⟨"e", 5, some 2⟩] =
      sweepGo "x" 5 twoClients
        { SweepAcc.zero with
            expiredSessionCount := SweepAcc.zero.expiredSessionCount + 1 } [] ∧
    sweepGo "x" 0 twoClients SweepAcc.zero [⟨"c", 99, some 3⟩] =
      Except.map (fun r => ((⟨"c", 99, some 3⟩ : Session) :: r.1, r.2))
        (sweepGo "x" 0 twoClients
          { SweepAcc.zero with
              closedClientCount := SweepAcc.zero.closedClientCount + 1 } []) ∧
    (∃ s2 ∈ stKnownAfter.sessions, s2.Token = "k") ∧
    stReg.sessions = stReg.sessions :=
  ⟨sweep_deletes_expired_skips_closed.1 "x" 5 twoClients SweepAcc.zero
      ⟨"e", 5, some 2⟩ [] (by decide),
   sweep_deletes_expired_skips_closed.2.1 "x" 0 twoClients SweepAcc.zero
      ⟨"c", 99, some 3⟩ [] 3 (by decide) (by decide) (by decide),
   sweep_deletes_expired_skips_closed.2.2.1 stKnown 1 "x" stKnownAfter (by rfl)
      ⟨"k", 77, none⟩ (by decide),
   sweep_deletes_expired_skips_closed.2.2.2 stReg 1 stReg (by rfl)⟩

/-! ## C5 -/

/-- C5: on registration, a supplied token equal to "nil" or absent from
the session store makes the hub mint a fresh token (NewSession) and send
it back on the token queue of the connection, the new session being bound to
the connection and the store growing by one; a supplied token present in
the store mints and sends nothing — the token queue stays drained, the
set of stored tokens is unchanged, and the existing session is bound to
the connection. -/
theorem register_mints_token_iff_nil_or_unknown
    (st : HubState) (cid : Nat) (freshTok supplied : SessionToken)
    (restBuf : List SessionToken)
    (hbuf : (st.clients cid).sendToken.buf = supplied :: restBuf) :
    ((supplied = "nil" ∨ st.sessions.any (fun s => s.Token == supplied) = false) →
      ∃ st2, registerStep st cid freshTok = some st2 ∧
        (st2.clients cid).sendToken.buf = restBuf ++ [freshTok] ∧
        (st2.clients cid).openFlag = true ∧
        (∃ s2 ∈ st2.sessions, s2.Token = freshTok ∧ s2.Client = some cid) ∧
        st2.sessions.length = st.sessions.length + 1) ∧
    ((supplied ≠ "nil" ∧ st.sessions.any (fun s => s.Token == supplied) = true) →
      ∃ st2, registerStep st cid freshTok = some st2 ∧
        (st2.clients cid).sendToken.buf = restBuf ∧
        (st2.clients cid).openFlag = true ∧
        st2.sessions.map Session.Token = st.sessions.map Session.Token ∧
        (∃ s2 ∈ st2.sessions, s2.Token = supplied ∧ s2.Client = some cid)) := by
  constructor
  · intro hmint
    have hcond : (supplied == "nil" || !st.sessions.any fun s => s.Token == supplied) = true := by
      rcases hmint with h | h <;> simp [h]
    unfold registerStep
    dsimp only
    rw [hbuf]
    dsimp only
    rw [if_pos hcond]
    refine ⟨_, rfl, ?_, ?_, ?_, ?_⟩
    · simp [updClient]
    · simp [updClient]
    · refine ⟨⟨freshTok, refreshExpiryTime st.now, some cid⟩, ?_, rfl, rfl⟩
      refine List.mem_map.mpr
        ⟨⟨freshTok, refreshExpiryTime st.now, none⟩, ?_, by simp⟩
      exact List.mem_append_right _ (List.mem_singleton_self _)
    · simp
  · intro hknown
    obtain ⟨hneq, hany⟩ := hknown
    have hcond : (supplied == "nil" || !st.sessions.any fun s => s.Token == supplied) = false := by
      simp [hany, hneq]
    unfold registerStep
    dsimp only
    rw [hbuf]
    dsimp only
    rw [if_neg (by simp [hcond])]
    refine ⟨_, rfl, ?_, ?_, ?_, ?_⟩
    · simp [updClient]
    · simp [updClient]
    · rw [List.map_map]
      apply List.map_congr_left
      intro s hs
      by_cases h : s.Token = supplied <;> simp [h]
    · obtain ⟨s, hs, hbeq⟩ := List.any_eq_true.mp hany
      refine ⟨{ s with Client := some cid }, ?_, ?_, rfl⟩
      · have hm := List.mem_map_of_mem
          (fun s => if (s.Token == supplied) = true then { s with Client := some cid } else s) hs
        simpa [hbeq] using hm
      · simpa using hbeq

/-- Witness for C5 at concrete inputs: registering with "nil" against the
empty store mints and sends "t1"; registering with the known token "k"
mints nothing and binds the existing session. -/
theorem register_mints_token_iff_nil_or_unknown_witness :
    (∃ st2, registerStep stReg 1 "t1" = some st2 ∧
        (st2.clients 1).sendToken.buf = [] ++ ["t1"] ∧
        (st2.clients 1).openFlag = true ∧
        (∃ s2 ∈ st2.sessions, s2.Token = "t1" ∧ s2.Client = some 1) ∧
        st2.sessions.length = stReg.sessions.length + 1) ∧
    (∃ st2, registerStep stKnown 1 "x" = some st2 ∧
        (st2.clients 1).sendToken.buf = [] ∧
        (st2.clients 1).openFlag = true ∧
        st2.sessions.map Session.Token = stKnown.sessions.map Session.Token ∧
        (∃ s2 ∈ st2.sessions, s2.Token = "k" ∧ s2.Client = some 1)) :=
  ⟨(register_mints_token_iff_nil_or_unknown stReg 1 "t1" "nil" [] (by rfl)).1 (Or.inl rfl),
   (register_mints_token_iff_nil_or_unknown stKnown 1 "x" "k" [] (by rfl)).2
      ⟨by decide, by decide⟩⟩

/-! ## C6 (amended) -/

/-- The register path in the mint branch: the exact hub state produced
when the supplied token is "nil" or unknown. -/
theorem registerStep_mint (st : HubState) (cid : Nat) (freshTok supplied : SessionToken)
    (restBuf : List SessionToken)
    (hbuf : (st.clients cid).sendToken.buf = supplied :: restBuf)
    (hcond : (supplied == "nil" || !st.sessions.any fun s => s.Token == supplied) = true) :
    registerStep st cid freshTok = some
      ⟨(st.sessions ++ [(⟨freshTok, refreshExpiryTime st.now, none⟩ : Session)]).map
          (fun s : Session =>
            if (s.Token == freshTok) = true then { s with Client := some cid } else s),
        updClient st.clients cid
          ⟨true, (st.clients cid).send,
            ⟨restBuf ++ [freshTok], (st.clients cid).sendToken.closed⟩⟩,
        st.now⟩ := by
  unfold registerStep
  dsimp only
  rw [hbuf]
  dsimp only
  rw [if_pos hcond]

/-- C6 (amended): for a connection registered with "nil" or an unknown
token, the freshly minted token is already queued (alone) on the token
channel when registration completes, hence before the pumps start; and
when the write pump services the token queue while no broadcast data is
queued, the token frame is the first frame on the wire.  (The
counterexample shows the converse schedule: data queued before the
pump makes its first selection can reach the wire first.) -/
theorem register_enqueues_token_before_pump_start
    (st : HubState) (cid : Nat) (freshTok supplied : SessionToken)
    (hbuf : (st.clients cid).sendToken.buf = [supplied])
    (hmint : supplied = "nil" ∨ st.sessions.any (fun s => s.Token == supplied) = false) :
    (∃ st2, registerStep st cid freshTok = some st2 ∧
        (st2.clients cid).sendToken.buf = [freshTok]) ∧
    (∀ (t : SessionToken) (cl : Bool) (sched : List PumpSelect),
        (pumpRun ⟨⟨[], false⟩, ⟨[t], cl⟩, false⟩ (.tokenCase :: sched)).2 =
          .text t :: (pumpRun ⟨⟨[], false⟩, ⟨[], cl⟩, false⟩ sched).2) := by
  constructor
  · have hcond : (supplied == "nil" || !st.sessions.any fun s => s.Token == supplied) = true := by
      rcases hmint with h | h <;> simp [h]
    refine ⟨_, registerStep_mint st cid freshTok supplied [] hbuf hcond, ?_⟩
    simp [updClient]
  · intro t cl sched
    simp [pumpRun, pumpStep, writePumpTokenBranch, batchPayload,
      batchPayload.chainWrites, String.append_empty]

/-- Witness for the amended C6 at concrete inputs. -/
theorem register_enqueues_token_before_pump_start_witness :
    (∃ st2, registerStep stReg 1 "t1" = some st2 ∧
        (st2.clients 1).sendToken.buf = ["t1"]) ∧
    (pumpRun ⟨⟨[], false⟩, ⟨["t1"], false⟩, false⟩ [.tokenCase]).2 =
      .text "t1" :: (pumpRun ⟨⟨[], false⟩, ⟨[], false⟩, false⟩ []).2 :=
  ⟨(register_enqueues_token_before_pump_start stReg 1 "t1" "nil" (by rfl)
      (Or.inl rfl)).1,
   (register_enqueues_token_before_pump_start stReg 1 "t1" "nil" (by rfl)
      (Or.inl rfl)).2 "t1" false []⟩

/-! ## C8 -/

/-- One visit of a deliverable session: the message is enqueued on the
bound client and the sweep continues on the rest with bumped counters. -/
theorem sweepGo_cons_sent (m : Msg) (now : Nat) (clients : Nat → Client) (acc : SweepAcc)
    (s : Session) (rest : List Session) (cid : Nat)
    (hexp : s.SessionExpired now = false) (hcl : s.Client = some cid)
    (hopen : (clients cid).openFlag = true)
    (hncl : (clients cid).send.closed = false)
    (hlt : (clients cid).send.buf.length < sendMsgBufferSize) :
    sweepGo m now clients acc (s :: rest) =
      match sweepGo m now
          (updClient clients cid
            { clients cid with send := ⟨(clients cid).send.buf ++ [m], false⟩ })
          ⟨acc.expiredSessionCount, acc.closedClientCount,
            acc.refreshedClientCount + 1, acc.messagesSent + 1⟩ rest with
      | .ok (ss2, cl2, a2) =>
          .ok ({ s with expireTime := refreshExpiryTime now } :: ss2, cl2, a2)
      | .error e => .error e := by
  simp [sweepGo, hexp, hcl, hopen, chanTrySend, hncl, hlt]

/-- Core induction for C8: a sweep over sessions bound to pairwise
distinct, open, unexpired clients whose message queues are below capacity
visits them all, refreshes each expiry, enqueues the message once on each
bound client, closes no channel, leaves untargeted clients untouched, and
counts one successful delivery per session. -/
theorem sweepGo_all_deliver (m : Msg) (now : Nat) :
    ∀ (ss : List Session) (clients : Nat → Client) (acc : SweepAcc),
      ss.Pairwise (fun a b => a.Client ≠ b.Client) →
      (∀ s ∈ ss, ∃ cid, s.Client = some cid ∧
          (clients cid).openFlag = true ∧
          (clients cid).send.closed = false ∧
          (clients cid).send.buf.length < sendMsgBufferSize ∧
          s.SessionExpired now = false) →
      ∃ clients2,
        sweepGo m now clients acc ss =
          .ok (ss.map (fun s => { s with expireTime := refreshExpiryTime now }),
               clients2,
               ⟨acc.expiredSessionCount, acc.closedClientCount,
                acc.refreshedClientCount + ss.length,
                acc.messagesSent + ss.length⟩) ∧
        (∀ cid, (∀ s ∈ ss, s.Client ≠ some cid) → clients2 cid = clients cid) ∧
        (∀ cid, (clients2 cid).openFlag = (clients cid).openFlag ∧
                (clients2 cid).send.closed = (clients cid).send.closed ∧
                (clients2 cid).sendToken = (clients cid).sendToken) ∧
        (∀ s ∈ ss, ∀ cid, s.Client = some cid →
            (clients2 cid).send.buf = (clients cid).send.buf ++ [m]) := by
  intro ss
  induction ss with
  | nil =>
      intro clients acc hp hok
      refine ⟨clients, by simp [sweepGo], fun cid h => rfl,
              fun cid => ⟨rfl, rfl, rfl⟩, fun s hs => absurd hs (by simp)⟩
  | cons s ss ih =>
      intro clients acc hp hok
      obtain ⟨cid, hcl, hopen, hncl, hlt, hexp⟩ := hok s (List.mem_cons_self s ss)
      obtain ⟨hphead, hptail⟩ := List.pairwise_cons.mp hp
      have hne_of_mem : ∀ s2 ∈ ss, ∀ cid2, s2.Client = some cid2 → cid2 ≠ cid := by
        intro s2 hs2 cid2 hcl2 hEq
        subst hEq
        exact (hphead s2 hs2) (hcl.trans hcl2.symm)
      have hupd_other : ∀ cid2, cid2 ≠ cid →
          updClient clients cid
              { clients cid with send := ⟨(clients cid).send.buf ++ [m], false⟩ } cid2 =
            clients cid2 := by
        intro cid2 hne
        simp [updClient, hne]
      have hupd_self :
          updClient clients cid
              { clients cid with send := ⟨(clients cid).send.buf ++ [m], false⟩ } cid =
            { clients cid with send := ⟨(clients cid).send.buf ++ [m], false⟩ } := by
        simp [updClient]
      have hok2 : ∀ s2 ∈ ss, ∃ cid2, s2.Client = some cid2 ∧
          ((updClient clients cid
              { clients cid with send := ⟨(clients cid).send.buf ++ [m], false⟩ }) cid2).openFlag = true ∧
          ((updClient clients cid
              { clients cid with send := ⟨(clients cid).send.buf ++ [m], false⟩ }) cid2).send.closed = false ∧
          ((updClient clients cid
              { clients cid with send := ⟨(clients cid).send.buf ++ [m], false⟩ }) cid2).send.buf.length < sendMsgBufferSize ∧
          s2.SessionExpired now = false := by
        intro s2 hs2
        obtain ⟨cid2, hcl2, h1, h2, h3, h4⟩ := hok s2 (List.mem_cons_of_mem _ hs2)
        have hne := hne_of_mem s2 hs2 cid2 hcl2
        exact ⟨cid2, hcl2, by rw [hupd_other cid2 hne]; exact h1,
               by rw [hupd_other cid2 hne]; exact h2,
               by rw [hupd_other cid2 hne]; exact h3, h4⟩
      obtain ⟨clients2, hrec, huntouched, hflags, hdeliv⟩ :=
        ih (updClient clients cid
              { clients cid with send := ⟨(clients cid).send.buf ++ [m], false⟩ })
           ⟨acc.expiredSessionCount, acc.closedClientCount,
             acc.refreshedClientCount + 1, acc.messagesSent + 1⟩ hptail hok2
      have hno_tail_cid : ∀ s2 ∈ ss, s2.Client ≠ some cid := by
        intro s2 hs2 hEq
        exact hne_of_mem s2 hs2 cid hEq rfl
      refine ⟨clients2, ?_, ?_, ?_, ?_⟩
      · rw [sweepGo_cons_sent m now clients acc s ss cid hexp hcl hopen hncl hlt, hrec]
        simp only [List.map_cons, List.length_cons]
        have e1 : acc.refreshedClientCount + 1 + ss.length
            = acc.refreshedClientCount + (ss.length + 1) := by omega
        have e2 : acc.messagesSent + 1 + ss.length
            = acc.messagesSent + (ss.length + 1) := by omega
        rw [e1, e2]
      · intro cid2 hall
        rw [huntouched cid2 (fun s2 hs2 => hall s2 (List.mem_cons_of_mem _ hs2))]
        have hne : cid2 ≠ cid := by
          intro hEq
          subst hEq
          exact hall s (List.mem_cons_self s ss) hcl
        exact hupd_other cid2 hne
      · intro cid2
        obtain ⟨hf1, hf2, hf3⟩ := hflags cid2
        by_cases hEq : cid2 = cid
        · subst hEq
          rw [hf1, hf2, hf3, hupd_self]
          exact ⟨rfl, hncl.symm ▸ rfl, rfl⟩
        · rw [hf1, hf2, hf3, hupd_other cid2 hEq]
          exact ⟨rfl, rfl, rfl⟩
      · intro s2 hs2 cid2 hcl2
        rcases List.mem_cons.mp hs2 with hEq | hmem
        · subst hEq
          have hcid : cid2 = cid := by
            rw [hcl] at hcl2
            exact (Option.some.injEq _ _ ▸ hcl2).symm ▸ rfl
          subst hcid
          rw [huntouched cid2 hno_tail_cid, hupd_self]
        · have hne := hne_of_mem s2 hmem cid2 hcl2
          rw [hdeliv s2 hmem cid2 hcl2, hupd_other cid2 hne]

/-- C8: broadcasting one message when exactly K sessions are in the
store, all open, unexpired, bound to pairwise distinct connections whose
outbound message queues are under capacity, delivers the message to all K
connections — K successful enqueues, the queue of each bound client
gaining the message — and force-closes zero connections: no closed flag
of any channel changes, no open flag of any client changes, and no session is dropped. -/
theorem broadcast_under_capacity_delivers_all
    (st : HubState) (m : Msg)
    (hp : st.sessions.Pairwise (fun a b => a.Client ≠ b.Client))
    (hok : ∀ s ∈ st.sessions, ∃ cid, s.Client = some cid ∧
        (st.clients cid).openFlag = true ∧
        (st.clients cid).send.closed = false ∧
        (st.clients cid).send.buf.length < sendMsgBufferSize ∧
        s.SessionExpired st.now = false) :
    ∃ st2 acc, broadcastAll st m = .ok (st2, acc) ∧
      acc.messagesSent = st.sessions.length ∧
      acc.expiredSessionCount = 0 ∧
      acc.closedClientCount = 0 ∧
      st2.sessions =
        st.sessions.map (fun s => { s with expireTime := refreshExpiryTime st.now }) ∧
      (∀ cid, (st2.clients cid).send.closed = (st.clients cid).send.closed ∧
              (st2.clients cid).sendToken = (st.clients cid).sendToken ∧
              (st2.clients cid).openFlag = (st.clients cid).openFlag) ∧
      (∀ s ∈ st.sessions, ∀ cid, s.Client = some cid →
          (st2.clients cid).send.buf = (st.clients cid).send.buf ++ [m]) := by
  obtain ⟨clients2, hrec, huntouched, hflags, hdeliv⟩ :=
    sweepGo_all_deliver m st.now st.sessions st.clients SweepAcc.zero hp hok
  refine ⟨{ st with
      sessions :=
        st.sessions.map (fun s => { s with expireTime := refreshExpiryTime st.now }),
      clients := clients2 },
    ⟨0, 0, 0 + st.sessions.length, 0 + st.sessions.length⟩,
    ?_, by simp, rfl, rfl, rfl, ?_, ?_⟩
  · unfold broadcastAll
    rw [hrec]
    rfl
  · intro cid
    obtain ⟨h1, h2, h3⟩ := hflags cid
    exact ⟨h2, h3, h1⟩
  · exact hdeliv

/-- Two open idle connections, ids 1 and 2. -/
def idleTwo : Nat → Client :=
  fun i => if i = 1 then idleClient else if i = 2 then idleClient else closedClient

/-- Hub state with two unexpired sessions bound to the two idle
connections. -/
def stIdle : HubState := ⟨[⟨"a", 100, some 1⟩, ⟨"b", 100, some 2⟩], idleTwo, 0⟩

/-- Witness for C8 at a concrete input: K = 2 idle open sessions. -/
theorem broadcast_under_capacity_delivers_all_witness :
    ∃ st2 acc, broadcastAll stIdle "hello" = .ok (st2, acc) ∧
      acc.messagesSent = stIdle.sessions.length ∧
      acc.expiredSessionCount = 0 ∧
      acc.closedClientCount = 0 ∧
      st2.sessions =
        stIdle.sessions.map (fun s => { s with expireTime := refreshExpiryTime stIdle.now }) ∧
      (∀ cid, (st2.clients cid).send.closed = (stIdle.clients cid).send.closed ∧
              (st2.clients cid).sendToken = (stIdle.clients cid).sendToken ∧
              (st2.clients cid).openFlag = (stIdle.clients cid).openFlag) ∧
      (∀ s ∈ stIdle.sessions, ∀ cid, s.Client = some cid →
          (st2.clients cid).send.buf = (stIdle.clients cid).send.buf ++ ["hello"]) :=
  broadcast_under_capacity_delivers_all stIdle "hello"
    (by simp [stIdle, List.pairwise_cons])
    (by
      intro s hs
      simp only [stIdle, List.mem_cons, List.not_mem_nil, or_false] at hs
      rcases hs with h | h <;> subst h
      · exact ⟨1, rfl, by decide, by decide, by decide, by decide⟩
      · exact ⟨2, rfl, by decide, by decide, by decide, by decide⟩)

end Buddy
